import Mathlib

/-!
# Satellite account service: token authentication and the authorization gate

A shallow embedding of `pkg/satellite/service.go` and of
`pkg/satellite/satelliteweb/satelliteql/project.go`.

* Byte slices are lists of `Fin 256`; a nil slice and an empty slice are both `[]`.
* `time.Time` is the number of nanoseconds since the zero instant of the type.
* Go functions returning `(value, error)` become `Except Error value`; the few whose
  value is named by a property even on failure keep the Go pair.
* Everything the service reaches through an interface or another package (the signer, the
  claims and token codecs, the request context accessors, the store) is a field of `Env`.
  Errors made by those collaborators are wrapped in `Error.external`, errors made by
  `errs.New` in the service are `Error.new` and `Error.newf`.
* The service threads a `World`: the store state, the clock reading and the ordered list
  of collaborator calls made so far.
-/

namespace Satellite

/-! ## Data model -/

/-- One byte. -/
abbrev Byte := Fin 256

/-- A Go byte slice. -/
abbrev Bytes := List Byte

/-- A `uuid.UUID`, the sixteen bytes read as one number. -/
abbrev UUID := Nat

/-- A `time.Time`: nanoseconds elapsed since the zero instant. -/
structure Time where
  ns : Int
  deriving DecidableEq, Repr

/-- Go `Time.IsZero`. -/
def Time.IsZero (t : Time) : Bool := t.ns == 0

/-- Go `Time.Before`. -/
def Time.Before (t u : Time) : Bool := decide (t.ns < u.ns)

/-- Go `Time.Add` with a duration in nanoseconds. -/
def Time.Add (t : Time) (d : Int) : Time := ⟨t.ns + d⟩

/-- Go `time.Second`. -/
def Second : Int := 1000000000

/-- Go `time.Minute`. -/
def Minute : Int := 60 * Second

/-- The Unix epoch, 1970-01-01T00:00:00Z: 62135596800 seconds after the zero instant. -/
def unixEpoch : Time := ⟨62135596800 * Second⟩

/-- Whether a time is one that Go `time.Now` can give. It reads the real-time clock of the
operating system, which counts up from the Unix epoch. -/
def Time.isClockReading (t : Time) : Bool := decide (unixEpoch.ns ≤ t.ns)

/-- Errors seen by callers of the service. -/
inductive Error where
  /-- An error made by `errs.New(msg)` inside the service. -/
  | new (msg : String)
  /-- An error made by `errs.New(format, id.String())` inside the service. -/
  | newf (format : String) (id : UUID)
  /-- An error value handed back by a collaborator and passed on unchanged. -/
  | external (msg : String)
  deriving DecidableEq, Repr

/-- Record `satelliteauth.Claims`. -/
structure Claims where
  ID : UUID
  Expiration : Time
  deriving DecidableEq, Repr

/-- Record `satelliteauth.Token`. -/
structure Token where
  Payload : Bytes
  Signature : Bytes
  deriving DecidableEq, Repr

/-- Record `User`, with the fields the service reads and writes. -/
structure User where
  ID : UUID
  FirstName : String
  LastName : String
  Email : String
  PasswordHash : Bytes
  deriving DecidableEq, Repr

/-- Record `UserInfo`. -/
structure UserInfo where
  FirstName : String
  LastName : String
  Email : String
  Password : String
  deriving DecidableEq, Repr

/-- Record `Company`. -/
structure Company where
  UserID : UUID
  Name : String
  Address : String
  Country : String
  City : String
  State : String
  PostalCode : String
  deriving DecidableEq, Repr

/-- Record `CompanyInfo`. -/
structure CompanyInfo where
  Name : String
  Address : String
  Country : String
  City : String
  State : String
  PostalCode : String
  deriving DecidableEq, Repr

/-- Record `Project`; `OwnerID` is a pointer in the source, `none` is nil. -/
structure Project where
  ID : UUID
  OwnerID : Option UUID
  Name : String
  Description : String
  TermsAccepted : Int
  CreatedAt : Time
  deriving DecidableEq, Repr

/-- Record `ProjectInfo`. -/
structure ProjectInfo where
  ID : UUID
  Name : String
  Description : String
  OwnerName : String
  IsTermsAccepted : Bool
  CreatedAt : Time
  deriving DecidableEq, Repr

/-- Record `Authorization`. -/
structure Authorization where
  User : User
  Claims : Claims
  deriving DecidableEq, Repr

/-! ## Collaborators and the world -/

/-- One call made by the service to a collaborator, with its arguments. -/
inductive Call where
  | GetAuth
  | GetAPIKey
  | FromBase64URLString (s : String)
  | ClaimsJSON (c : Claims)
  | FromJSON (data : Bytes)
  | Sign (data : Bytes)
  | Now
  | UsersGet (id : UUID)
  | UsersGetByCredentials (hash : Bytes) (email : String)
  | UsersUpdate (u : User)
  | UsersDelete (id : UUID)
  | CompaniesInsert (c : Company)
  | CompaniesGetByUserID (id : UUID)
  | CompaniesUpdate (c : Company)
  | ProjectsGet (id : UUID)
  | ProjectsGetAll
  | ProjectsInsert (p : Project)
  | ProjectsDelete (id : UUID)
  | ProjectsUpdate (p : Project)
  deriving DecidableEq, Repr

/-- Whether a call reads or writes the Users, Companies or Projects store. -/
def Call.isStore : Call → Bool
  | .GetAuth => false
  | .GetAPIKey => false
  | .FromBase64URLString _ => false
  | .ClaimsJSON _ => false
  | .FromJSON _ => false
  | .Sign _ => false
  | .Now => false
  | _ => true

/-- The collaborators of the service. `κ` is the request context, `σ` the store state.
Every store method takes the context and the store state and gives its result and the
store state after the call. -/
structure Env (κ σ : Type) where
  /-- Method `Signer.Sign`. -/
  Sign : Bytes → Except String Bytes
  /-- Method `(*satelliteauth.Claims).JSON`. -/
  ClaimsJSON : Claims → Except String Bytes
  /-- Function `satelliteauth.FromJSON`. -/
  FromJSON : Bytes → Except String Claims
  /-- Method `satelliteauth.Token.String`. -/
  TokenString : Token → String
  /-- Function `satelliteauth.FromBase64URLString`. -/
  FromBase64URLString : String → Except String Token
  /-- The digest `sha256.Sum256([]byte(s))` as a slice. -/
  Sum256 : String → Bytes
  /-- Function `auth.GetAPIKey`, its byte result already converted to a string. -/
  GetAPIKey : κ → Option String
  /-- Function `GetAuth`. -/
  GetAuth : κ → Except Error Authorization
  /-- Function `utils.CombineErrors`. -/
  CombineErrors : List Error → Option Error
  UsersGet : κ → UUID → σ → Except String User × σ
  UsersGetByCredentials : κ → Bytes → String → σ → Except String User × σ
  UsersUpdate : κ → User → σ → Except String Unit × σ
  UsersDelete : κ → UUID → σ → Except String Unit × σ
  CompaniesInsert : κ → Company → σ → Except String Company × σ
  CompaniesGetByUserID : κ → UUID → σ → Except String Company × σ
  CompaniesUpdate : κ → Company → σ → Except String Unit × σ
  ProjectsGet : κ → UUID → σ → Except String Project × σ
  ProjectsGetAll : κ → σ → Except String (List Project) × σ
  ProjectsInsert : κ → Project → σ → Except String Project × σ
  ProjectsDelete : κ → UUID → σ → Except String Unit × σ
  ProjectsUpdate : κ → Project → σ → Except String Unit × σ

/-- What the service runs against: the store, the clock and the calls made so far. -/
structure World (σ : Type) where
  db : σ
  now : Time
  trace : List Call

/-- Append one call to the record of calls. -/
def World.log {σ : Type} (w : World σ) (c : Call) : World σ :=
  { w with trace := w.trace ++ [c] }

/-- A collaborator error as the caller sees it. -/
def liftErr {α : Type} : Except String α → Except Error α
  | .ok a => .ok a
  | .error e => .error (.external e)

/-- Run one store method: record the call, install the store state it leaves. -/
def callStore {σ α : Type} (c : Call) (op : σ → Except String α × σ) (w : World σ) :
    Except Error α × World σ :=
  (liftErr (op w.db).1, { w with db := (op w.db).2, trace := w.trace ++ [c] })

/-! ## `crypto/subtle` -/

/-- Go `subtle.ConstantTimeByteEq`: `int((uint32(x^y) - 1) >> 31)` on two bytes. -/
def ConstantTimeByteEq (x y : Nat) : Nat :=
  (((x ^^^ y) % 4294967296 + 4294967295) % 4294967296) / 2147483648

/-- The loop of `subtle.ConstantTimeCompare`: `v |= x[i] ^ y[i]` over the common indices. -/
def orXor : Bytes → Bytes → Nat → Nat
  | a :: x, b :: y, v => orXor x y ((v ||| (a.val ^^^ b.val)) % 256)
  | _, _, v => v

/-- Go `subtle.ConstantTimeCompare`. -/
def ConstantTimeCompare (x y : Bytes) : Nat :=
  if x.length ≠ y.length then 0 else ConstantTimeByteEq (orXor x y 0) 0

/-! ## Token issuance and verification -/

/-- Modelled from the spec: `signToken` is declared in a file of the package that is not
at hand. The spec gives its effect: the signature is what the signer produces over the
token's payload, and it is stored in the token; a failure of the signer is returned. -/
def signToken {κ σ : Type} (env : Env κ σ) (token : Token) (w : World σ) :
    Except Error Token × World σ :=
  match env.Sign token.Payload with
  | .error e => (.error (.external e), w.log (.Sign token.Payload))
  | .ok sig => (.ok { token with Signature := sig }, w.log (.Sign token.Payload))

/-- Method `Service.createToken`; the pair is Go's `(string, error)`. -/
def Service.createToken {κ σ : Type} (env : Env κ σ) (claims : Claims) (w : World σ) :
    (String × Option Error) × World σ :=
  match env.ClaimsJSON claims with
  | .error e => (("", some (.external e)), w.log (.ClaimsJSON claims))
  | .ok json =>
    match signToken env { Payload := json, Signature := [] } (w.log (.ClaimsJSON claims)) with
    | (.error e, w1) => (("", some e), w1)
    | (.ok token, w1) => ((env.TokenString token, none), w1)

/-- Method `Service.authenticate`. -/
def Service.authenticate {κ σ : Type} (env : Env κ σ) (token : Token) (w : World σ) :
    Except Error Claims × World σ :=
  let signature := token.Signature
  match signToken env token w with
  | (.error e, w1) => (.error e, w1)
  | (.ok token, w1) =>
    if ConstantTimeCompare signature token.Signature ≠ 1 then
      (.error (.new "incorrect signature"), w1)
    else
      match env.FromJSON token.Payload with
      | .error e => (.error (.external e), w1.log (.FromJSON token.Payload))
      | .ok claims => (.ok claims, w1.log (.FromJSON token.Payload))

/-- Method `Service.authorize`. The condition `!IsZero() && Before(time.Now())` is
evaluated left to right, so the clock is read only when the expiration is not zero. -/
def Service.authorize {κ σ : Type} (env : Env κ σ) (ctx : κ) (claims : Claims) (w : World σ) :
    Except Error User × World σ :=
  let outdated : Bool × World σ :=
    if !claims.Expiration.IsZero then (claims.Expiration.Before w.now, w.log .Now)
    else (false, w)
  if outdated.1 then
    (.error (.new "token is outdated"), outdated.2)
  else
    match callStore (.UsersGet claims.ID) (env.UsersGet ctx claims.ID) outdated.2 with
    | (.error _, w1) =>
      (.error (.newf "authorization failed. no user with id: %s" claims.ID), w1)
    | (.ok user, w1) => (.ok user, w1)

/-- Method `Service.Authorize`. -/
def Service.Authorize {κ σ : Type} (env : Env κ σ) (ctx : κ) (w : World σ) :
    Except Error Authorization × World σ :=
  match env.GetAPIKey ctx with
  | none => (.error (.new "no api key was provided"), w.log .GetAPIKey)
  | some tokenS =>
    match env.FromBase64URLString tokenS with
    | .error e => (.error (.external e), (w.log .GetAPIKey).log (.FromBase64URLString tokenS))
    | .ok token =>
      match Service.authenticate env token ((w.log .GetAPIKey).log (.FromBase64URLString tokenS)) with
      | (.error e, w1) => (.error e, w1)
      | (.ok claims, w1) =>
        match Service.authorize env ctx claims w1 with
        | (.error e, w2) => (.error e, w2)
        | (.ok user, w2) => (.ok { User := user, Claims := claims }, w2)

/-- Method `Service.Token`; the pair is Go's `(string, error)`. -/
def Service.Token {κ σ : Type} (env : Env κ σ) (ctx : κ) (email password : String)
    (w : World σ) : (String × Option Error) × World σ :=
  let passwordHash := env.Sum256 password
  match callStore (.UsersGetByCredentials passwordHash email)
      (env.UsersGetByCredentials ctx passwordHash email) w with
  | (.error e, w1) => (("", some e), w1)
  | (.ok user, w1) =>
    let claims : Claims := { ID := user.ID, Expiration := w1.now.Add (Minute * 15) }
    match Service.createToken env claims (w1.log .Now) with
    | ((_, some e), w2) => (("", some e), w2)
    | ((token, none), w2) => ((token, none), w2)

/-! ## Gated account operations -/

/-- Method `Service.CreateCompany`. -/
def Service.CreateCompany {κ σ : Type} (env : Env κ σ) (ctx : κ) (info : CompanyInfo)
    (w : World σ) : Except Error Company × World σ :=
  match env.GetAuth ctx with
  | .error e => (.error e, w.log .GetAuth)
  | .ok auth =>
    let company : Company :=
      { UserID := auth.User.ID, Name := info.Name, Address := info.Address,
        Country := info.Country, City := info.City, State := info.State,
        PostalCode := info.PostalCode }
    callStore (.CompaniesInsert company) (env.CompaniesInsert ctx company) (w.log .GetAuth)

/-- Method `Service.GetUser`. -/
def Service.GetUser {κ σ : Type} (env : Env κ σ) (ctx : κ) (id : UUID) (w : World σ) :
    Except Error User × World σ :=
  match env.GetAuth ctx with
  | .error e => (.error e, w.log .GetAuth)
  | .ok _ => callStore (.UsersGet id) (env.UsersGet ctx id) (w.log .GetAuth)

/-- Method `Service.UpdateUser`. -/
def Service.UpdateUser {κ σ : Type} (env : Env κ σ) (ctx : κ) (id : UUID) (info : UserInfo)
    (w : World σ) : Except Error Unit × World σ :=
  match env.GetAuth ctx with
  | .error e => (.error e, w.log .GetAuth)
  | .ok _ =>
    let passwordHash : Bytes := if info.Password ≠ "" then env.Sum256 info.Password else []
    let user : User :=
      { ID := id, FirstName := info.FirstName, LastName := info.LastName,
        Email := info.Email, PasswordHash := passwordHash }
    callStore (.UsersUpdate user) (env.UsersUpdate ctx user) (w.log .GetAuth)

/-- Method `Service.DeleteUser`. -/
def Service.DeleteUser {κ σ : Type} (env : Env κ σ) (ctx : κ) (id : UUID) (w : World σ) :
    Except Error Unit × World σ :=
  match env.GetAuth ctx with
  | .error e => (.error e, w.log .GetAuth)
  | .ok _ => callStore (.UsersDelete id) (env.UsersDelete ctx id) (w.log .GetAuth)

/-- Method `Service.GetCompany`. -/
def Service.GetCompany {κ σ : Type} (env : Env κ σ) (ctx : κ) (userID : UUID) (w : World σ) :
    Except Error Company × World σ :=
  match env.GetAuth ctx with
  | .error e => (.error e, w.log .GetAuth)
  | .ok _ =>
    callStore (.CompaniesGetByUserID userID) (env.CompaniesGetByUserID ctx userID)
      (w.log .GetAuth)

/-- Method `Service.UpdateCompany`. -/
def Service.UpdateCompany {κ σ : Type} (env : Env κ σ) (ctx : κ) (userID : UUID)
    (info : CompanyInfo) (w : World σ) : Except Error Unit × World σ :=
  match env.GetAuth ctx with
  | .error e => (.error e, w.log .GetAuth)
  | .ok _ =>
    let company : Company :=
      { UserID := userID, Name := info.Name, Address := info.Address,
        Country := info.Country, City := info.City, State := info.State,
        PostalCode := info.PostalCode }
    callStore (.CompaniesUpdate company) (env.CompaniesUpdate ctx company) (w.log .GetAuth)

/-- Method `Service.GetProject`. -/
def Service.GetProject {κ σ : Type} (env : Env κ σ) (ctx : κ) (projectID : UUID)
    (w : World σ) : Except Error Project × World σ :=
  match env.GetAuth ctx with
  | .error e => (.error e, w.log .GetAuth)
  | .ok _ => callStore (.ProjectsGet projectID) (env.ProjectsGet ctx projectID) (w.log .GetAuth)

/-- Method `Service.projectToProjectInfo`; the project is a pointer, `none` is nil. -/
def Service.projectToProjectInfo {κ σ : Type} (env : Env κ σ) (ctx : κ)
    (project : Option Project) (w : World σ) : Except Error ProjectInfo × World σ :=
  match project with
  | none => (.error (.new "project parameter is nil"), w)
  | some project =>
    let projInfo : ProjectInfo :=
      { ID := project.ID, Name := project.Name, Description := project.Description,
        OwnerName := "", IsTermsAccepted := true, CreatedAt := project.CreatedAt }
    match project.OwnerID with
    | none => (.ok projInfo, w)
    | some ownerID =>
      match callStore (.UsersGet ownerID) (env.UsersGet ctx ownerID) w with
      | (.error _, w1) => (.ok projInfo, w1)
      | (.ok owner, w1) =>
        (.ok { projInfo with OwnerName := owner.FirstName ++ " " ++ owner.LastName }, w1)

/-- The loop of `Service.projectsToProjectInfoSlice` over the projects still to visit. -/
def projectsLoop {κ σ : Type} (env : Env κ σ) (ctx : κ) :
    List Project → List ProjectInfo → List Error → World σ →
      (List ProjectInfo × List Error) × World σ
  | [], projectsInfo, errors, w => ((projectsInfo, errors), w)
  | project :: rest, projectsInfo, errors, w =>
    match Service.projectToProjectInfo env ctx (some project) w with
    | (.error err, w1) => projectsLoop env ctx rest projectsInfo (errors ++ [err]) w1
    | (.ok info, w1) => projectsLoop env ctx rest (projectsInfo ++ [info]) errors w1

/-- Method `Service.projectsToProjectInfoSlice`; the pair is Go's `([]ProjectInfo, error)`. -/
def Service.projectsToProjectInfoSlice {κ σ : Type} (env : Env κ σ) (ctx : κ)
    (projects : List Project) (w : World σ) : (List ProjectInfo × Option Error) × World σ :=
  match projectsLoop env ctx projects [] [] w with
  | ((projectsInfo, errors), w1) => ((projectsInfo, env.CombineErrors errors), w1)

/-- Method `Service.GetUsersProjects`; the pair is Go's `([]ProjectInfo, error)`. -/
def Service.GetUsersProjects {κ σ : Type} (env : Env κ σ) (ctx : κ) (w : World σ) :
    (List ProjectInfo × Option Error) × World σ :=
  match env.GetAuth ctx with
  | .error e => (([], some e), w.log .GetAuth)
  | .ok _ =>
    match callStore .ProjectsGetAll (env.ProjectsGetAll ctx) (w.log .GetAuth) with
    | (.error _, w1) => (([], some (.new "Can not fetch projects!")), w1)
    | (.ok projects, w1) => Service.projectsToProjectInfoSlice env ctx projects w1

/-- Method `Service.CreateProject`. -/
def Service.CreateProject {κ σ : Type} (env : Env κ σ) (ctx : κ) (projectInfo : ProjectInfo)
    (w : World σ) : Except Error Project × World σ :=
  match env.GetAuth ctx with
  | .error e => (.error e, w.log .GetAuth)
  | .ok auth =>
    if !projectInfo.IsTermsAccepted then
      (.error (.new "Terms of use should be accepted!"), w.log .GetAuth)
    else
      let project : Project :=
        { ID := 0, OwnerID := some auth.User.ID, Name := projectInfo.Name,
          Description := projectInfo.Description, TermsAccepted := 1, CreatedAt := ⟨0⟩ }
      callStore (.ProjectsInsert project) (env.ProjectsInsert ctx project) (w.log .GetAuth)

/-- Method `Service.DeleteProject`. -/
def Service.DeleteProject {κ σ : Type} (env : Env κ σ) (ctx : κ) (projectID : UUID)
    (w : World σ) : Except Error Unit × World σ :=
  match env.GetAuth ctx with
  | .error e => (.error e, w.log .GetAuth)
  | .ok _ =>
    callStore (.ProjectsDelete projectID) (env.ProjectsDelete ctx projectID) (w.log .GetAuth)

/-- Method `Service.UpdateProject`. -/
def Service.UpdateProject {κ σ : Type} (env : Env κ σ) (ctx : κ) (projectID : UUID)
    (description : String) (w : World σ) : Except Error Project × World σ :=
  match env.GetAuth ctx with
  | .error e => (.error e, w.log .GetAuth)
  | .ok _ =>
    match callStore (.ProjectsGet projectID) (env.ProjectsGet ctx projectID) (w.log .GetAuth) with
    | (.error _, w1) => (.error (.new "Project doesn't exist!"), w1)
    | (.ok project, w1) =>
      let project : Project := { project with Description := description }
      match callStore (.ProjectsUpdate project) (env.ProjectsUpdate ctx project) w1 with
      | (.error e, w2) => (.error e, w2)
      | (.ok _, w2) => (.ok project, w2)

/-! ## GraphQL input mapping -/

/-- A dynamically typed GraphQL argument value (Go `interface{}`). -/
inductive Value where
  | null
  | bool (b : Bool)
  | int (n : Int)
  | string (s : String)
  | list (vs : List Value)
  deriving Repr

/-- The resolver arguments, Go `map[string]interface{}`; an absent key gives `none`. -/
abbrev Args := String → Option Value

/-- The assertion `v.(string)` with its failure flag dropped: the zero value on failure. -/
def Value.assertString : Option Value → String
  | some (.string s) => s
  | _ => ""

/-- The assertion `v.(bool)` with its failure flag dropped: the zero value on failure. -/
def Value.assertBool : Option Value → Bool
  | some (.bool b) => b
  | _ => false

/-- Constant `fieldDescription`. -/
def fieldDescription : String := "description"

/-- Constant `fieldIsTermsAccepted`. -/
def fieldIsTermsAccepted : String := "isTermsAccepted"

/-- Function `fromMapProjectInfo`. The constant `fieldName` is declared in another file of
the package and is taken as a parameter. -/
def fromMapProjectInfo (fieldName : String) (args : Args) : ProjectInfo :=
  { ID := 0
    Name := Value.assertString (args fieldName)
    Description := Value.assertString (args fieldDescription)
    OwnerName := ""
    IsTermsAccepted := Value.assertBool (args fieldIsTermsAccepted)
    CreatedAt := ⟨0⟩ }

/-! ## Tampering with a token -/

/-- The byte with bit `k` inverted. -/
def flipBit (b : Byte) (k : Nat) : Byte :=
  ⟨(b.val ^^^ 2 ^ k) % 256, Nat.mod_lt _ (by decide)⟩

/-- The slice with bit `k` of the byte at index `i` inverted; unchanged when `i` is out of
range. -/
def flipBitAt : Bytes → Nat → Nat → Bytes
  | [], _, _ => []
  | b :: bs, 0, k => flipBit b k :: bs
  | b :: bs, i + 1, k => b :: flipBitAt bs i k

/-! ## A small concrete instance

A context that holds the API key and the stored authorization outcome, an in-memory store,
a nine-byte claims encoding, a checksum signer and a dotted string form of tokens. -/

/-- A request context: the API key it carries and what `GetAuth` finds in it. -/
structure DemoCtx where
  apiKey : Option String
  auth : Except Error Authorization

/-- An in-memory store; `down` makes every user lookup fail with an I/O error. -/
structure DemoDB where
  users : List User
  companies : List Company
  projects : List Project
  down : Bool

/-- The eight big-endian bytes of a number below `2 ^ 64`. -/
def be8 (n : Nat) : Bytes :=
  [7, 6, 5, 4, 3, 2, 1, 0].map fun i => ⟨(n / 256 ^ i) % 256, Nat.mod_lt _ (by decide)⟩

/-- The sixteen big-endian bytes of a number below `2 ^ 128`. -/
def be16 (n : Nat) : Bytes :=
  [15, 14, 13, 12, 11, 10, 9, 8, 7, 6, 5, 4, 3, 2, 1, 0].map fun i =>
    ⟨(n / 256 ^ i) % 256, Nat.mod_lt _ (by decide)⟩

/-- The number whose big-endian bytes are given. -/
def unbe (bs : Bytes) : Nat := bs.foldl (fun acc b => acc * 256 + b.val) 0

/-- Claims as bytes: the identifier, then the expiration in nanoseconds on eight bytes
when it fits and on sixteen otherwise. -/
def demoClaimsJSON (c : Claims) : Except String Bytes :=
  if h : c.ID < 256 then
    if 0 ≤ c.Expiration.ns ∧ c.Expiration.ns < 18446744073709551616 then
      .ok (⟨c.ID, h⟩ :: be8 c.Expiration.ns.toNat)
    else if 0 ≤ c.Expiration.ns ∧ c.Expiration.ns < 340282366920938463463374607431768211456 then
      .ok (⟨c.ID, h⟩ :: be16 c.Expiration.ns.toNat)
    else .error "expiration out of range"
  else .error "identifier out of range"

/-- Decoder for `demoClaimsJSON`. -/
def demoFromJSON (data : Bytes) : Except String Claims :=
  match data with
  | id :: rest =>
    if rest.length = 8 ∨ rest.length = 16 then
      .ok { ID := id.val, Expiration := ⟨Int.ofNat (unbe rest)⟩ }
    else .error "unexpected end of input"
  | [] => .error "unexpected end of input"

/-- One byte as a character outside the ASCII range, so that it is never the separator. -/
def byteChar (b : Byte) : Char := Char.ofNat (b.val + 256)

/-- Decoder for `byteChar`. -/
def charByte (c : Char) : Option Byte :=
  if h : 256 ≤ c.toNat ∧ c.toNat < 512 then some ⟨c.toNat - 256, by omega⟩ else none

/-- All characters as bytes, or `none` when one is not the image of a byte. -/
def charsBytes : List Char → Option Bytes
  | [] => some []
  | c :: cs =>
    match charByte c, charsBytes cs with
    | some b, some bs => some (b :: bs)
    | _, _ => none

/-- The characters before the first dot and those after it. -/
def splitDot : List Char → Option (List Char × List Char)
  | [] => none
  | c :: cs =>
    if c = '.' then some ([], cs)
    else
      match splitDot cs with
      | some (l, r) => some (c :: l, r)
      | none => none

/-- Token string form: payload characters, a dot, signature characters. -/
def demoTokenString (t : Token) : String :=
  String.mk (t.Payload.map byteChar ++ '.' :: t.Signature.map byteChar)

/-- Parser for `demoTokenString`. -/
def demoFromBase64URLString (s : String) : Except String Token :=
  match splitDot s.data with
  | none => .error "invalid token format"
  | some (l, r) =>
    match charsBytes l, charsBytes r with
    | some payload, some signature => .ok { Payload := payload, Signature := signature }
    | _, _ => .error "illegal character"

/-- A checksum signer: the byte sum and the length of the data. -/
def demoSign (data : Bytes) : Except String Bytes :=
  .ok [⟨(data.map Fin.val).sum % 256, Nat.mod_lt _ (by decide)⟩,
       ⟨data.length % 256, Nat.mod_lt _ (by decide)⟩]

/-- A signer that looks at the length of the data only. -/
def lengthSign (data : Bytes) : Except String Bytes :=
  .ok [⟨data.length % 256, Nat.mod_lt _ (by decide)⟩]

/-- User lookup of the in-memory store. -/
def demoUsersGet (id : UUID) (db : DemoDB) : Except String User × DemoDB :=
  if db.down then (.error "i/o timeout", db)
  else
    match db.users.find? (fun u => u.ID == id) with
    | some u => (.ok u, db)
    | none => (.error "user not found", db)

/-- Credential lookup of the in-memory store. -/
def demoUsersGetByCredentials (hash : Bytes) (email : String) (db : DemoDB) :
    Except String User × DemoDB :=
  match db.users.find? (fun u => u.Email == email && u.PasswordHash == hash) with
  | some u => (.ok u, db)
  | none => (.error "user not found", db)

/-- Project lookup of the in-memory store. -/
def demoProjectsGet (id : UUID) (db : DemoDB) : Except String Project × DemoDB :=
  match db.projects.find? (fun p => p.ID == id) with
  | some p => (.ok p, db)
  | none => (.error "project not found", db)

/-- Company lookup of the in-memory store. -/
def demoCompaniesGetByUserID (id : UUID) (db : DemoDB) : Except String Company × DemoDB :=
  match db.companies.find? (fun c => c.UserID == id) with
  | some c => (.ok c, db)
  | none => (.error "company not found", db)

/-- The concrete collaborators. -/
def demoEnv : Env DemoCtx DemoDB where
  Sign := demoSign
  ClaimsJSON := demoClaimsJSON
  FromJSON := demoFromJSON
  TokenString := demoTokenString
  FromBase64URLString := demoFromBase64URLString
  Sum256 := fun s => s.data.map fun c => ⟨c.toNat % 256, Nat.mod_lt _ (by decide)⟩
  GetAPIKey := fun ctx => ctx.apiKey
  GetAuth := fun ctx => ctx.auth
  CombineErrors := fun errors => errors.head?
  UsersGet := fun _ id db => demoUsersGet id db
  UsersGetByCredentials := fun _ hash email db => demoUsersGetByCredentials hash email db
  UsersUpdate := fun _ u db =>
    (.ok (), { db with users := db.users.map fun v => if v.ID = u.ID then u else v })
  UsersDelete := fun _ id db => (.ok (), { db with users := db.users.filter fun v => v.ID != id })
  CompaniesInsert := fun _ c db => (.ok c, { db with companies := db.companies ++ [c] })
  CompaniesGetByUserID := fun _ id db => demoCompaniesGetByUserID id db
  CompaniesUpdate := fun _ c db =>
    (.ok (), { db with companies := db.companies.map fun d => if d.UserID = c.UserID then c else d })
  ProjectsGet := fun _ id db => demoProjectsGet id db
  ProjectsGetAll := fun _ db => (.ok db.projects, db)
  ProjectsInsert := fun _ p db => (.ok p, { db with projects := db.projects ++ [p] })
  ProjectsDelete := fun _ id db =>
    (.ok (), { db with projects := db.projects.filter fun q => q.ID != id })
  ProjectsUpdate := fun _ p db =>
    (.ok (), { db with projects := db.projects.map fun q => if q.ID = p.ID then p else q })

/-- The concrete collaborators with the length-only signer. -/
def weakEnv : Env DemoCtx DemoDB := { demoEnv with Sign := lengthSign }

/-- The concrete collaborators with a signer that always fails. -/
def failEnv : Env DemoCtx DemoDB := { demoEnv with Sign := fun _ => .error "key unavailable" }

/-- A user of the in-memory store. -/
def alice : User :=
  { ID := 7, FirstName := "Alice", LastName := "A", Email := "alice@example.org",
    PasswordHash := demoEnv.Sum256 "secret" }

/-- A store that holds `alice` only. -/
def aliceDB : DemoDB := { users := [alice], companies := [], projects := [], down := false }

/-- A store that holds nobody. -/
def emptyDB : DemoDB := { users := [], companies := [], projects := [], down := false }

/-- A store whose user lookups fail with an I/O error. -/
def downDB : DemoDB := { users := [alice], companies := [], projects := [], down := true }

/-- A context with nothing in it: no API key, and `GetAuth` fails. -/
def anonymousCtx : DemoCtx := { apiKey := none, auth := .error (.new "unauthorized") }

/-- A context whose stored authorization is `alice`. -/
def aliceCtx : DemoCtx :=
  { apiKey := none, auth := .ok { User := alice, Claims := { ID := 7, Expiration := ⟨0⟩ } } }


/-! ## Facts about `crypto/subtle` -/

theorem or_eq_zero_iff (x y : Nat) : x ||| y = 0 ↔ x = 0 ∧ y = 0 := by
  constructor
  · intro h
    have hbit : ∀ i, (x.testBit i || y.testBit i) = false := by
      intro i
      rw [← Nat.testBit_or, h, Nat.zero_testBit]
    constructor
    · apply Nat.eq_of_testBit_eq
      intro i
      have := hbit i
      simp only [Bool.or_eq_false_iff] at this
      simp [this.1]
    · apply Nat.eq_of_testBit_eq
      intro i
      have := hbit i
      simp only [Bool.or_eq_false_iff] at this
      simp [this.2]
  · rintro ⟨rfl, rfl⟩
    rfl

theorem byte_xor_lt (a b : Byte) : a.val ^^^ b.val < 256 :=
  Nat.xor_lt_two_pow (n := 8) a.isLt b.isLt

theorem orXor_step_eq (a b : Byte) (v : Nat) (hv : v < 256) :
    (v ||| (a.val ^^^ b.val)) % 256 = v ||| (a.val ^^^ b.val) :=
  Nat.mod_eq_of_lt (Nat.or_lt_two_pow (n := 8) hv (byte_xor_lt a b))

theorem orXor_lt (x y : Bytes) (v : Nat) (hv : v < 256) : orXor x y v < 256 := by
  induction x generalizing y v with
  | nil => simpa [orXor] using hv
  | cons a x ih =>
    cases y with
    | nil => simpa [orXor] using hv
    | cons b y =>
      simp only [orXor]
      exact ih y _ (Nat.mod_lt _ (by decide))

theorem orXor_eq_zero_iff (x y : Bytes) (v : Nat) (hv : v < 256)
    (hlen : x.length = y.length) : orXor x y v = 0 ↔ v = 0 ∧ x = y := by
  induction x generalizing y v with
  | nil =>
    cases y with
    | nil => simp [orXor]
    | cons b y => simp at hlen
  | cons a x ih =>
    cases y with
    | nil => simp at hlen
    | cons b y =>
      simp only [List.length_cons, Nat.add_right_cancel_iff] at hlen
      simp only [orXor]
      rw [ih y _ (Nat.mod_lt _ (by decide)) hlen, orXor_step_eq a b v hv, or_eq_zero_iff,
        Nat.xor_eq_zero, List.cons.injEq, Fin.val_inj]
      tauto

theorem ConstantTimeByteEq_zero (v : Nat) (hv : v < 256) :
    ConstantTimeByteEq v 0 = 1 ↔ v = 0 := by
  unfold ConstantTimeByteEq
  simp only [Nat.xor_zero]
  omega

theorem ConstantTimeCompare_eq_one_iff (x y : Bytes) : ConstantTimeCompare x y = 1 ↔ x = y := by
  unfold ConstantTimeCompare
  by_cases hlen : x.length = y.length
  · simp only [hlen, ne_eq, not_true_eq_false, if_false]
    rw [ConstantTimeByteEq_zero _ (orXor_lt x y 0 (by decide)),
      orXor_eq_zero_iff x y 0 (by decide) hlen]
    simp
  · simp only [ne_eq, hlen, not_false_eq_true, if_true]
    constructor
    · intro h
      exact absurd h (by decide)
    · intro h
      exact absurd (congrArg List.length h) hlen

/-! ## Verification of a token -/

theorem signToken_ok {κ σ : Type} (env : Env κ σ) (token : Token) (w : World σ) (sig : Bytes)
    (hsign : env.Sign token.Payload = .ok sig) :
    signToken env token w =
      (.ok { token with Signature := sig }, w.log (.Sign token.Payload)) := by
  simp only [signToken, hsign]

theorem signToken_error {κ σ : Type} (env : Env κ σ) (token : Token) (w : World σ) (e : String)
    (hsign : env.Sign token.Payload = .error e) :
    signToken env token w = (.error (.external e), w.log (.Sign token.Payload)) := by
  simp only [signToken, hsign]

theorem authenticate_sign_error {κ σ : Type} (env : Env κ σ) (token : Token) (w : World σ)
    (e : String) (hsign : env.Sign token.Payload = .error e) :
    Service.authenticate env token w = (.error (.external e), w.log (.Sign token.Payload)) := by
  simp only [Service.authenticate, signToken_error env token w e hsign]

theorem authenticate_mismatch {κ σ : Type} (env : Env κ σ) (token : Token) (w : World σ)
    (sig : Bytes) (hsign : env.Sign token.Payload = .ok sig) (hne : sig ≠ token.Signature) :
    Service.authenticate env token w =
      (.error (.new "incorrect signature"), w.log (.Sign token.Payload)) := by
  have hcmp : ConstantTimeCompare token.Signature sig ≠ 1 := by
    rw [ne_eq, ConstantTimeCompare_eq_one_iff]
    exact fun h => hne h.symm
  simp only [Service.authenticate, signToken_ok env token w sig hsign, hcmp, ne_eq,
    not_false_eq_true, if_true]

theorem authenticate_match {κ σ : Type} (env : Env κ σ) (token : Token) (w : World σ)
    (hsign : env.Sign token.Payload = .ok token.Signature) :
    Service.authenticate env token w =
      (liftErr (env.FromJSON token.Payload),
        (w.log (.Sign token.Payload)).log (.FromJSON token.Payload)) := by
  have hcmp : ConstantTimeCompare token.Signature token.Signature = 1 :=
    (ConstantTimeCompare_eq_one_iff _ _).2 rfl
  simp only [Service.authenticate, signToken_ok env token w _ hsign, hcmp, ne_eq,
    not_true_eq_false, if_false]
  cases hdec : env.FromJSON token.Payload <;> simp [liftErr]

theorem liftErr_ne_new {α : Type} (r : Except String α) (msg : String) :
    liftErr r ≠ .error (.new msg) := by
  cases r <;> simp [liftErr]

/-- Claim C1: when the signer succeeds on the payload, `authenticate` fails with the
incorrect-signature error exactly when the recomputed signature differs from the one that
came with the token; when they agree its result is the result of decoding the payload,
whatever the clock reads and whatever expiration the decoded claims carry. -/
theorem authenticate_contract {κ σ : Type} (env : Env κ σ) (token : Token) (w : World σ)
    (sig : Bytes) (hsign : env.Sign token.Payload = .ok sig) :
    ((Service.authenticate env token w).1 = .error (.new "incorrect signature") ↔
        sig ≠ token.Signature) ∧
      (sig = token.Signature →
        ∀ t : Time, (Service.authenticate env token { w with now := t }).1 =
          liftErr (env.FromJSON token.Payload)) ∧
      (sig = token.Signature → ∀ (t : Time) (claims : Claims),
        env.FromJSON token.Payload = .ok claims →
          (Service.authenticate env token { w with now := t }).1 = .ok claims) ∧
      (∀ t : Time, (Service.authenticate env token { w with now := t }).1 =
        (Service.authenticate env token w).1) ∧
      (Service.authenticate env token w).2.now = w.now ∧
      (Service.authenticate env token w).2.db = w.db ∧
      Call.Now ∉ (Service.authenticate env token w).2.trace.drop w.trace.length := by
  by_cases heq : sig = token.Signature
  · subst heq
    have hm := fun w' : World σ => authenticate_match env token w' hsign
    refine ⟨?_, ?_, ?_, ?_, ?_, ?_, ?_⟩
    · rw [hm]
      simp [liftErr_ne_new]
    · intro _ t
      rw [hm]
    · intro _ t claims hdec
      rw [hm, hdec]
      rfl
    · intro t
      rw [hm, hm]
    · rw [hm]
      rfl
    · rw [hm]
      rfl
    · rw [hm]
      simp [World.log]
  · have hm := fun w' : World σ => authenticate_mismatch env token w' sig hsign heq
    refine ⟨?_, ?_, ?_, ?_, ?_, ?_, ?_⟩
    · rw [hm]
      simp [heq]
    · intro h
      exact absurd h heq
    · intro h
      exact absurd h heq
    · intro t
      rw [hm, hm]
    · rw [hm]
      rfl
    · rw [hm]
      rfl
    · rw [hm]
      simp [World.log]

/-- Witness for `authenticate_contract`: a token signed by the checksum signer. -/
theorem authenticate_contract_witness :
    demoEnv.Sign (7 :: be8 900000000000) = .ok [186, 9] ∧
      (Service.authenticate demoEnv ⟨7 :: be8 900000000000, [186, 9]⟩
        (⟨aliceDB, ⟨5⟩, []⟩ : World DemoDB)).1 = .ok ⟨7, ⟨900000000000⟩⟩ :=
  ⟨rfl, (authenticate_contract demoEnv ⟨7 :: be8 900000000000, [186, 9]⟩
    ⟨aliceDB, ⟨5⟩, []⟩ [186, 9] rfl).2.2.1 rfl ⟨5⟩ ⟨7, ⟨900000000000⟩⟩ rfl⟩

/-! ## Issuing a token -/

theorem createToken_ok {κ σ : Type} (env : Env κ σ) (claims : Claims) (w : World σ)
    (json sig : Bytes) (hjson : env.ClaimsJSON claims = .ok json)
    (hsign : env.Sign json = .ok sig) :
    Service.createToken env claims w =
      ((env.TokenString { Payload := json, Signature := sig }, none),
        (w.log (.ClaimsJSON claims)).log (.Sign json)) := by
  simp only [Service.createToken, hjson,
    signToken_ok env { Payload := json, Signature := [] } _ sig hsign]

/-- Claim C2: a token issued for claims `C` by `createToken`, parsed back from its string
and handed to `authenticate` under the same signer, is accepted and gives `C` back, when
the signer succeeds on the encoded claims, the claims codec round-trips at `C` and the token
codec round-trips at the issued token. -/
theorem signature_integrity {κ σ : Type} (env : Env κ σ) (claims : Claims) (w w' : World σ)
    (json sig : Bytes) (hjson : env.ClaimsJSON claims = .ok json)
    (hdec : env.FromJSON json = .ok claims) (hsign : env.Sign json = .ok sig)
    (hstr : env.FromBase64URLString (env.TokenString { Payload := json, Signature := sig }) =
      .ok { Payload := json, Signature := sig }) :
    ∃ (s : String) (token : Token),
      (Service.createToken env claims w).1 = (s, none) ∧
        env.FromBase64URLString s = .ok token ∧
        (Service.authenticate env token w').1 = .ok claims := by
  refine ⟨env.TokenString { Payload := json, Signature := sig },
    { Payload := json, Signature := sig }, ?_, hstr, ?_⟩
  · rw [createToken_ok env claims w json sig hjson hsign]
  · rw [authenticate_match env { Payload := json, Signature := sig } w' hsign]
    simp only [hdec, liftErr]

/-- Witness for `signature_integrity`: claims for user 7 under the checksum signer. -/
theorem signature_integrity_witness :
    ∃ (s : String) (token : Token),
      (Service.createToken demoEnv ⟨7, ⟨900000000000⟩⟩
        (⟨aliceDB, ⟨0⟩, []⟩ : World DemoDB)).1 = (s, none) ∧
        demoEnv.FromBase64URLString s = .ok token ∧
        (Service.authenticate demoEnv token (⟨aliceDB, ⟨5⟩, []⟩ : World DemoDB)).1 =
          .ok ⟨7, ⟨900000000000⟩⟩ :=
  signature_integrity demoEnv ⟨7, ⟨900000000000⟩⟩ ⟨aliceDB, ⟨0⟩, []⟩ ⟨aliceDB, ⟨5⟩, []⟩
    (7 :: be8 900000000000) [186, 9] rfl rfl rfl rfl

/-! ## Tampering -/

theorem flipBit_ne (b : Byte) (k : Nat) (hk : k < 8) : flipBit b k ≠ b := by
  intro h
  have hpow : 2 ^ k < 2 ^ 8 := Nat.pow_lt_pow_right (by decide) hk
  have hlt : b.val ^^^ 2 ^ k < 256 := Nat.xor_lt_two_pow (n := 8) b.isLt hpow
  have hval : (b.val ^^^ 2 ^ k) % 256 = b.val := congrArg Fin.val h
  rw [Nat.mod_eq_of_lt hlt] at hval
  have hz : b.val ^^^ 2 ^ k = b.val ^^^ 0 := by rw [hval, Nat.xor_zero]
  have := Nat.xor_right_inj.1 hz
  exact absurd this (Nat.pos_iff_ne_zero.1 (Nat.two_pow_pos k))

theorem flipBitAt_ne (bs : Bytes) (i k : Nat) (hi : i < bs.length) (hk : k < 8) :
    flipBitAt bs i k ≠ bs := by
  induction bs generalizing i with
  | nil => simp at hi
  | cons b bs ih =>
    cases i with
    | zero =>
      simp only [flipBitAt, ne_eq, List.cons.injEq, and_true]
      exact flipBit_ne b k hk
    | succ i =>
      simp only [flipBitAt, ne_eq, List.cons.injEq, true_and]
      exact ih i (by simpa using hi)

/-- Claim C3, as the code has it: for a token issued by `createToken`, inverting any one
bit of the signature makes `authenticate` fail with the incorrect-signature error, and
inverting any one bit of the payload makes it fail, with that error or with the signer's
own, whenever the signer does not give the issued signature for the altered payload; when
the signer does give it, the result is whatever decoding the altered payload gives. -/
theorem tamper_detection {κ σ : Type} (env : Env κ σ) (claims : Claims) (w w' : World σ)
    (json sig : Bytes) (i k : Nat) (hjson : env.ClaimsJSON claims = .ok json)
    (hsign : env.Sign json = .ok sig) (hk : k < 8) :
    (Service.createToken env claims w).1 =
        (env.TokenString { Payload := json, Signature := sig }, none) ∧
      (i < sig.length →
        (Service.authenticate env { Payload := json, Signature := flipBitAt sig i k } w').1 =
          .error (.new "incorrect signature")) ∧
      (i < json.length → env.Sign (flipBitAt json i k) ≠ .ok sig →
        (Service.authenticate env { Payload := flipBitAt json i k, Signature := sig } w').1 =
            .error (.new "incorrect signature") ∨
          ∃ e, env.Sign (flipBitAt json i k) = .error e ∧
            (Service.authenticate env { Payload := flipBitAt json i k, Signature := sig } w').1 =
              .error (.external e)) ∧
      (env.Sign (flipBitAt json i k) = .ok sig →
        (Service.authenticate env { Payload := flipBitAt json i k, Signature := sig } w').1 =
          liftErr (env.FromJSON (flipBitAt json i k))) := by
  refine ⟨?_, ?_, ?_, ?_⟩
  · rw [createToken_ok env claims w json sig hjson hsign]
  · intro hi
    rw [authenticate_mismatch env { Payload := json, Signature := flipBitAt sig i k } w' sig
      hsign (fun h => flipBitAt_ne sig i k hi hk h.symm)]
  · intro _ hne
    cases hs : env.Sign (flipBitAt json i k) with
    | error e =>
      right
      refine ⟨e, rfl, ?_⟩
      rw [authenticate_sign_error env { Payload := flipBitAt json i k, Signature := sig } w' e hs]
    | ok sig2 =>
      left
      rw [authenticate_mismatch env { Payload := flipBitAt json i k, Signature := sig } w' sig2
        hs (fun h => hne (by rw [hs, h]))]
  · intro hs
    rw [authenticate_match env { Payload := flipBitAt json i k, Signature := sig } w' hs]

/-- Witness for `tamper_detection`: bit 0 of the first byte, under the checksum signer. -/
theorem tamper_detection_witness :
    (Service.authenticate demoEnv
        { Payload := 7 :: be8 900000000000, Signature := flipBitAt [186, 9] 0 0 }
        (⟨aliceDB, ⟨5⟩, []⟩ : World DemoDB)).1 = .error (.new "incorrect signature") ∧
      (Service.authenticate demoEnv
        { Payload := flipBitAt (7 :: be8 900000000000) 0 0, Signature := [186, 9] }
        (⟨aliceDB, ⟨5⟩, []⟩ : World DemoDB)).1 = .error (.new "incorrect signature") :=
  have h := tamper_detection demoEnv ⟨7, ⟨900000000000⟩⟩ ⟨aliceDB, ⟨0⟩, []⟩ ⟨aliceDB, ⟨5⟩, []⟩
    (7 :: be8 900000000000) [186, 9] 0 0 rfl rfl (by decide)
  have hsig : demoEnv.Sign (flipBitAt (7 :: be8 900000000000) 0 0) ≠ .ok [186, 9] :=
    fun h2 =>
      have h3 : (Except.ok [185, 9] : Except String Bytes) = .ok [186, 9] := h2
      absurd (Except.ok.inj h3) (by decide)
  ⟨h.2.1 (by decide), (h.2.2.1 (by decide) hsig).resolve_right (by
    rintro ⟨e, he, _⟩
    cases he)⟩

/-- Claim C3 fails as stated: under a signer that looks only at the length of the data, the
token issued for user 7 with bit 0 of its first payload byte inverted is accepted by
`authenticate`, which returns claims for user 6. -/
theorem tamper_undetected_weak_signer :
    (Service.createToken weakEnv ⟨7, ⟨0⟩⟩ (⟨aliceDB, ⟨0⟩, []⟩ : World DemoDB)).1 =
        (weakEnv.TokenString { Payload := 7 :: be8 0, Signature := [9] }, none) ∧
      weakEnv.FromBase64URLString
          (weakEnv.TokenString { Payload := 7 :: be8 0, Signature := [9] }) =
        .ok { Payload := 7 :: be8 0, Signature := [9] } ∧
      (Service.authenticate weakEnv
        { Payload := flipBitAt (7 :: be8 0) 0 0, Signature := [9] }
        (⟨aliceDB, ⟨0⟩, []⟩ : World DemoDB)).1 = .ok ⟨6, ⟨0⟩⟩ :=
  ⟨rfl, rfl, rfl⟩

/-! ## Expiration and user resolution -/

theorem authorize_outdated {κ σ : Type} (env : Env κ σ) (ctx : κ) (claims : Claims)
    (w : World σ) (hz : claims.Expiration.IsZero = false)
    (hb : claims.Expiration.Before w.now = true) :
    Service.authorize env ctx claims w = (.error (.new "token is outdated"), w.log .Now) := by
  simp [Service.authorize, hz, hb]

theorem authorize_pass_error {κ σ : Type} (env : Env κ σ) (ctx : κ) (claims : Claims)
    (w : World σ) (e : String) (db : σ)
    (hpass : claims.Expiration.IsZero = true ∨ claims.Expiration.Before w.now = false)
    (hget : env.UsersGet ctx claims.ID w.db = (.error e, db)) :
    Service.authorize env ctx claims w =
      (.error (.newf "authorization failed. no user with id: %s" claims.ID),
        { db := db, now := w.now,
          trace := (if claims.Expiration.IsZero then w.trace else w.trace ++ [.Now]) ++
            [.UsersGet claims.ID] }) := by
  cases hz : claims.Expiration.IsZero with
  | true => simp [Service.authorize, hz, callStore, hget, liftErr]
  | false =>
    have hb : claims.Expiration.Before w.now = false := by
      rcases hpass with h | h
      · rw [hz] at h
        cases h
      · exact h
    simp [Service.authorize, hz, hb, callStore, World.log, hget, liftErr]

theorem authorize_pass_ok {κ σ : Type} (env : Env κ σ) (ctx : κ) (claims : Claims)
    (w : World σ) (user : User) (db : σ)
    (hpass : claims.Expiration.IsZero = true ∨ claims.Expiration.Before w.now = false)
    (hget : env.UsersGet ctx claims.ID w.db = (.ok user, db)) :
    Service.authorize env ctx claims w =
      (.ok user,
        { db := db, now := w.now,
          trace := (if claims.Expiration.IsZero then w.trace else w.trace ++ [.Now]) ++
            [.UsersGet claims.ID] }) := by
  cases hz : claims.Expiration.IsZero with
  | true => simp [Service.authorize, hz, callStore, hget, liftErr]
  | false =>
    have hb : claims.Expiration.Before w.now = false := by
      rcases hpass with h | h
      · rw [hz] at h
        cases h
      · exact h
    simp [Service.authorize, hz, hb, callStore, World.log, hget, liftErr]

theorem authorize_pass_ne_outdated {κ σ : Type} (env : Env κ σ) (ctx : κ) (claims : Claims)
    (w : World σ)
    (hpass : claims.Expiration.IsZero = true ∨ claims.Expiration.Before w.now = false) :
    (Service.authorize env ctx claims w).1 ≠ .error (.new "token is outdated") ∧
      Call.UsersGet claims.ID ∈ (Service.authorize env ctx claims w).2.trace := by
  rcases hget : env.UsersGet ctx claims.ID w.db with ⟨r, db⟩
  cases r with
  | error e =>
    rw [authorize_pass_error env ctx claims w e db hpass hget]
    simp
  | ok user =>
    rw [authorize_pass_ok env ctx claims w user db hpass hget]
    simp

/-- Claim C4: `authorize` fails with the token-outdated error exactly when the expiration
is not the zero time and is strictly before the clock reading. A zero expiration is never
rejected as expired; an expiration one second before a reading of the system clock is
rejected; an expiration equal to the clock reading, or one second after it, passes the
check and the user store is consulted. -/
theorem authorize_expiration {κ σ : Type} (env : Env κ σ) (ctx : κ) (claims : Claims)
    (w : World σ) :
    ((Service.authorize env ctx claims w).1 = .error (.new "token is outdated") ↔
        (claims.Expiration.IsZero = false ∧ claims.Expiration.Before w.now = true)) ∧
      (∀ id : UUID,
        (Service.authorize env ctx ⟨id, ⟨0⟩⟩ w).1 ≠ .error (.new "token is outdated")) ∧
      (∀ id : UUID, w.now.isClockReading = true →
        (Service.authorize env ctx ⟨id, w.now.Add (-Second)⟩ w).1 =
          .error (.new "token is outdated")) ∧
      (∀ id : UUID,
        (Service.authorize env ctx ⟨id, w.now⟩ w).1 ≠ .error (.new "token is outdated") ∧
          Call.UsersGet id ∈ (Service.authorize env ctx ⟨id, w.now⟩ w).2.trace) ∧
      (∀ id : UUID,
        (Service.authorize env ctx ⟨id, w.now.Add Second⟩ w).1 ≠
            .error (.new "token is outdated") ∧
          Call.UsersGet id ∈ (Service.authorize env ctx ⟨id, w.now.Add Second⟩ w).2.trace) := by
  refine ⟨?_, ?_, ?_, ?_, ?_⟩
  · constructor
    · intro h
      by_contra hn
      have hpass : claims.Expiration.IsZero = true ∨ claims.Expiration.Before w.now = false := by
        cases hz : claims.Expiration.IsZero with
        | true => exact Or.inl rfl
        | false =>
          cases hb : claims.Expiration.Before w.now with
          | true => exact absurd ⟨hz, hb⟩ hn
          | false => exact Or.inr rfl
      exact (authorize_pass_ne_outdated env ctx claims w hpass).1 h
    · rintro ⟨hz, hb⟩
      rw [authorize_outdated env ctx claims w hz hb]
  · intro id
    exact (authorize_pass_ne_outdated env ctx ⟨id, ⟨0⟩⟩ w (Or.inl rfl)).1
  · intro id hclock
    rw [authorize_outdated env ctx ⟨id, w.now.Add (-Second)⟩ w]
    · simp only [Time.isClockReading, unixEpoch, Second, decide_eq_true_eq] at hclock
      simp only [Time.IsZero, Time.Add, Second, beq_eq_false_iff_ne, ne_eq]
      omega
    · simp [Time.Before, Time.Add, Second]
  · intro id
    exact authorize_pass_ne_outdated env ctx ⟨id, w.now⟩ w (Or.inr (by simp [Time.Before]))
  · intro id
    exact authorize_pass_ne_outdated env ctx ⟨id, w.now.Add Second⟩ w
      (Or.inr (by simp [Time.Before, Time.Add, Second]))

/-- Witness for `authorize_expiration`: the clock one minute after the Unix epoch, an
expiration one second earlier. -/
theorem authorize_expiration_witness :
    (unixEpoch.Add Minute).isClockReading = true ∧
      (Service.authorize demoEnv anonymousCtx ⟨7, (unixEpoch.Add Minute).Add (-Second)⟩
        (⟨aliceDB, unixEpoch.Add Minute, []⟩ : World DemoDB)).1 =
          .error (.new "token is outdated") :=
  ⟨by decide, (authorize_expiration demoEnv anonymousCtx ⟨7, ⟨0⟩⟩
    (⟨aliceDB, unixEpoch.Add Minute, []⟩ : World DemoDB)).2.2.1 7 (by decide)⟩

/-- Claim C6, as the code has it: for claims that pass the expiration check, whatever error
the store's user lookup fails with, `authorize` returns the one error that names the
identifier looked up; nothing of the store's error is kept. -/
theorem authorize_store_error {κ σ : Type} (env : Env κ σ) (ctx : κ) (claims : Claims)
    (w : World σ) (e : String) (db : σ)
    (hpass : claims.Expiration.IsZero = true ∨ claims.Expiration.Before w.now = false)
    (hget : env.UsersGet ctx claims.ID w.db = (.error e, db)) :
    (Service.authorize env ctx claims w).1 =
      .error (.newf "authorization failed. no user with id: %s" claims.ID) := by
  rw [authorize_pass_error env ctx claims w e db hpass hget]

/-- Witness for `authorize_store_error`: a store whose lookups fail with an I/O error. -/
theorem authorize_store_error_witness :
    demoEnv.UsersGet anonymousCtx 7 downDB = (.error "i/o timeout", downDB) ∧
      (Service.authorize demoEnv anonymousCtx ⟨7, ⟨0⟩⟩ (⟨downDB, ⟨5⟩, []⟩ : World DemoDB)).1 =
        .error (.newf "authorization failed. no user with id: %s" 7) :=
  ⟨rfl, authorize_store_error demoEnv anonymousCtx ⟨7, ⟨0⟩⟩ ⟨downDB, ⟨5⟩, []⟩ "i/o timeout"
    downDB (Or.inl rfl) rfl⟩

/-- Claim C6 fails as stated: a lookup that fails with an I/O error and a lookup that finds
no such user end in the same error from `authorize`. -/
theorem store_failure_not_distinct :
    (demoEnv.UsersGet anonymousCtx 7 downDB).1 = .error "i/o timeout" ∧
      (demoEnv.UsersGet anonymousCtx 7 emptyDB).1 = .error "user not found" ∧
      (Service.authorize demoEnv anonymousCtx ⟨7, ⟨0⟩⟩ (⟨downDB, ⟨5⟩, []⟩ : World DemoDB)).1 =
        (Service.authorize demoEnv anonymousCtx ⟨7, ⟨0⟩⟩
          (⟨emptyDB, ⟨5⟩, []⟩ : World DemoDB)).1 :=
  ⟨rfl, rfl, rfl⟩

/-! ## The authorization gate -/

theorem Authorize_no_key {κ σ : Type} (env : Env κ σ) (ctx : κ) (w : World σ)
    (hkey : env.GetAPIKey ctx = none) :
    Service.Authorize env ctx w =
      (.error (.new "no api key was provided"), w.log .GetAPIKey) := by
  simp only [Service.Authorize, hkey]

theorem Authorize_malformed {κ σ : Type} (env : Env κ σ) (ctx : κ) (w : World σ)
    (s e : String) (hkey : env.GetAPIKey ctx = some s)
    (hparse : env.FromBase64URLString s = .error e) :
    Service.Authorize env ctx w =
      (.error (.external e), (w.log .GetAPIKey).log (.FromBase64URLString s)) := by
  simp only [Service.Authorize, hkey, hparse]

theorem Authorize_parsed {κ σ : Type} (env : Env κ σ) (ctx : κ) (w : World σ)
    (s : String) (token : Token) (hkey : env.GetAPIKey ctx = some s)
    (hparse : env.FromBase64URLString s = .ok token) :
    Service.Authorize env ctx w =
      match Service.authenticate env token ((w.log .GetAPIKey).log (.FromBase64URLString s)) with
      | (.error e, w1) => (.error e, w1)
      | (.ok claims, w1) =>
        match Service.authorize env ctx claims w1 with
        | (.error e, w2) => (.error e, w2)
        | (.ok user, w2) => (.ok { User := user, Claims := claims }, w2) := by
  simp only [Service.Authorize, hkey, hparse]

theorem Authorize_authenticated {κ σ : Type} (env : Env κ σ) (ctx : κ) (w : World σ)
    (s : String) (token : Token) (claims : Claims) (hkey : env.GetAPIKey ctx = some s)
    (hparse : env.FromBase64URLString s = .ok token)
    (hsign : env.Sign token.Payload = .ok token.Signature)
    (hdec : env.FromJSON token.Payload = .ok claims) :
    Service.Authorize env ctx w =
      match Service.authorize env ctx claims
        ((((w.log .GetAPIKey).log (.FromBase64URLString s)).log (.Sign token.Payload)).log
          (.FromJSON token.Payload)) with
      | (.error e, w2) => (.error e, w2)
      | (.ok user, w2) => (.ok { User := user, Claims := claims }, w2) := by
  rw [Authorize_parsed env ctx w s token hkey hparse, authenticate_match env token _ hsign, hdec]
  rfl

/-- Claim C5: `Authorize` extracts the API key, parses it, authenticates the signature,
checks the expiration and resolves the user, in that order; it returns the error of the
first step that fails and the recorded calls stop at that step, so the store is left alone
unless the token is present, well formed, correctly signed, decodable and not expired.
When every step succeeds the result holds the claims decoded from the payload and the
record the store returned for their identifier. -/
theorem Authorize_steps {κ σ : Type} (env : Env κ σ) (ctx : κ) (w : World σ) :
    (env.GetAPIKey ctx = none →
        Service.Authorize env ctx w =
          (.error (.new "no api key was provided"),
            { db := w.db, now := w.now, trace := w.trace ++ [.GetAPIKey] })) ∧
      (∀ (s e : String), env.GetAPIKey ctx = some s →
        env.FromBase64URLString s = .error e →
        Service.Authorize env ctx w =
          (.error (.external e),
            { db := w.db, now := w.now,
              trace := w.trace ++ [.GetAPIKey, .FromBase64URLString s] })) ∧
      (∀ (s e : String) (token : Token), env.GetAPIKey ctx = some s →
        env.FromBase64URLString s = .ok token → env.Sign token.Payload = .error e →
        Service.Authorize env ctx w =
          (.error (.external e),
            { db := w.db, now := w.now,
              trace := w.trace ++
                [.GetAPIKey, .FromBase64URLString s, .Sign token.Payload] })) ∧
      (∀ (s : String) (token : Token) (sig : Bytes), env.GetAPIKey ctx = some s →
        env.FromBase64URLString s = .ok token → env.Sign token.Payload = .ok sig →
        sig ≠ token.Signature →
        Service.Authorize env ctx w =
          (.error (.new "incorrect signature"),
            { db := w.db, now := w.now,
              trace := w.trace ++
                [.GetAPIKey, .FromBase64URLString s, .Sign token.Payload] })) ∧
      (∀ (s e : String) (token : Token), env.GetAPIKey ctx = some s →
        env.FromBase64URLString s = .ok token →
        env.Sign token.Payload = .ok token.Signature →
        env.FromJSON token.Payload = .error e →
        Service.Authorize env ctx w =
          (.error (.external e),
            { db := w.db, now := w.now,
              trace := w.trace ++
                [.GetAPIKey, .FromBase64URLString s, .Sign token.Payload,
                  .FromJSON token.Payload] })) ∧
      (∀ (s : String) (token : Token) (claims : Claims), env.GetAPIKey ctx = some s →
        env.FromBase64URLString s = .ok token →
        env.Sign token.Payload = .ok token.Signature →
        env.FromJSON token.Payload = .ok claims →
        claims.Expiration.IsZero = false → claims.Expiration.Before w.now = true →
        Service.Authorize env ctx w =
          (.error (.new "token is outdated"),
            { db := w.db, now := w.now,
              trace := w.trace ++
                [.GetAPIKey, .FromBase64URLString s, .Sign token.Payload,
                  .FromJSON token.Payload, .Now] })) ∧
      (∀ (s e : String) (token : Token) (claims : Claims) (db : σ),
        env.GetAPIKey ctx = some s → env.FromBase64URLString s = .ok token →
        env.Sign token.Payload = .ok token.Signature →
        env.FromJSON token.Payload = .ok claims →
        (claims.Expiration.IsZero = true ∨ claims.Expiration.Before w.now = false) →
        env.UsersGet ctx claims.ID w.db = (.error e, db) →
        Service.Authorize env ctx w =
          (.error (.newf "authorization failed. no user with id: %s" claims.ID),
            { db := db, now := w.now,
              trace := w.trace ++
                [.GetAPIKey, .FromBase64URLString s, .Sign token.Payload,
                  .FromJSON token.Payload] ++
                (if claims.Expiration.IsZero then [] else [.Now]) ++
                [.UsersGet claims.ID] })) ∧
      (∀ (s : String) (token : Token) (claims : Claims) (user : User) (db : σ),
        env.GetAPIKey ctx = some s → env.FromBase64URLString s = .ok token →
        env.Sign token.Payload = .ok token.Signature →
        env.FromJSON token.Payload = .ok claims →
        (claims.Expiration.IsZero = true ∨ claims.Expiration.Before w.now = false) →
        env.UsersGet ctx claims.ID w.db = (.ok user, db) →
        Service.Authorize env ctx w =
          (.ok { User := user, Claims := claims },
            { db := db, now := w.now,
              trace := w.trace ++
                [.GetAPIKey, .FromBase64URLString s, .Sign token.Payload,
                  .FromJSON token.Payload] ++
                (if claims.Expiration.IsZero then [] else [.Now]) ++
                [.UsersGet claims.ID] })) ∧
      ((¬ ∃ (s : String) (token : Token) (claims : Claims),
          env.GetAPIKey ctx = some s ∧ env.FromBase64URLString s = .ok token ∧
            env.Sign token.Payload = .ok token.Signature ∧
            env.FromJSON token.Payload = .ok claims ∧
            (claims.Expiration.IsZero = true ∨ claims.Expiration.Before w.now = false)) →
        (Service.Authorize env ctx w).2.db = w.db ∧
          (Service.Authorize env ctx w).2.trace.filter Call.isStore =
            w.trace.filter Call.isStore ∧
          ∃ e, (Service.Authorize env ctx w).1 = .error e) := by
  have c1 : env.GetAPIKey ctx = none →
      Service.Authorize env ctx w =
        (.error (.new "no api key was provided"),
          { db := w.db, now := w.now, trace := w.trace ++ [.GetAPIKey] }) := by
    intro hkey
    rw [Authorize_no_key env ctx w hkey]
    rfl
  have c2 : ∀ (s e : String), env.GetAPIKey ctx = some s →
      env.FromBase64URLString s = .error e →
      Service.Authorize env ctx w =
        (.error (.external e),
          { db := w.db, now := w.now,
            trace := w.trace ++ [.GetAPIKey, .FromBase64URLString s] }) := by
    intro s e hkey hparse
    rw [Authorize_malformed env ctx w s e hkey hparse]
    simp [World.log]
  have c3 : ∀ (s e : String) (token : Token), env.GetAPIKey ctx = some s →
      env.FromBase64URLString s = .ok token → env.Sign token.Payload = .error e →
      Service.Authorize env ctx w =
        (.error (.external e),
          { db := w.db, now := w.now,
            trace := w.trace ++
              [.GetAPIKey, .FromBase64URLString s, .Sign token.Payload] }) := by
    intro s e token hkey hparse hsign
    rw [Authorize_parsed env ctx w s token hkey hparse,
      authenticate_sign_error env token _ e hsign]
    simp [World.log]
  have c4 : ∀ (s : String) (token : Token) (sig : Bytes), env.GetAPIKey ctx = some s →
      env.FromBase64URLString s = .ok token → env.Sign token.Payload = .ok sig →
      sig ≠ token.Signature →
      Service.Authorize env ctx w =
        (.error (.new "incorrect signature"),
          { db := w.db, now := w.now,
            trace := w.trace ++
              [.GetAPIKey, .FromBase64URLString s, .Sign token.Payload] }) := by
    intro s token sig hkey hparse hsign hne
    rw [Authorize_parsed env ctx w s token hkey hparse,
      authenticate_mismatch env token _ sig hsign hne]
    simp [World.log]
  have c5 : ∀ (s e : String) (token : Token), env.GetAPIKey ctx = some s →
      env.FromBase64URLString s = .ok token →
      env.Sign token.Payload = .ok token.Signature →
      env.FromJSON token.Payload = .error e →
      Service.Authorize env ctx w =
        (.error (.external e),
          { db := w.db, now := w.now,
            trace := w.trace ++
              [.GetAPIKey, .FromBase64URLString s, .Sign token.Payload,
                .FromJSON token.Payload] }) := by
    intro s e token hkey hparse hsign hdec
    rw [Authorize_parsed env ctx w s token hkey hparse,
      authenticate_match env token _ hsign, hdec]
    simp [World.log, liftErr]
  have c6 : ∀ (s : String) (token : Token) (claims : Claims), env.GetAPIKey ctx = some s →
      env.FromBase64URLString s = .ok token →
      env.Sign token.Payload = .ok token.Signature →
      env.FromJSON token.Payload = .ok claims →
      claims.Expiration.IsZero = false → claims.Expiration.Before w.now = true →
      Service.Authorize env ctx w =
        (.error (.new "token is outdated"),
          { db := w.db, now := w.now,
            trace := w.trace ++
              [.GetAPIKey, .FromBase64URLString s, .Sign token.Payload,
                .FromJSON token.Payload, .Now] }) := by
    intro s token claims hkey hparse hsign hdec hz hb
    rw [Authorize_authenticated env ctx w s token claims hkey hparse hsign hdec,
      authorize_outdated env ctx claims
        ((((w.log .GetAPIKey).log (.FromBase64URLString s)).log (.Sign token.Payload)).log
        (.FromJSON token.Payload)) hz hb]
    simp [World.log]
  refine ⟨c1, c2, c3, c4, c5, c6, ?_, ?_, ?_⟩
  · intro s e token claims db hkey hparse hsign hdec hpass hget
    rw [Authorize_authenticated env ctx w s token claims hkey hparse hsign hdec,
      authorize_pass_error env ctx claims
        ((((w.log .GetAPIKey).log (.FromBase64URLString s)).log (.Sign token.Payload)).log
        (.FromJSON token.Payload)) e db hpass hget]
    cases hz : claims.Expiration.IsZero <;> simp [World.log]
  · intro s token claims user db hkey hparse hsign hdec hpass hget
    rw [Authorize_authenticated env ctx w s token claims hkey hparse hsign hdec,
      authorize_pass_ok env ctx claims
        ((((w.log .GetAPIKey).log (.FromBase64URLString s)).log (.Sign token.Payload)).log
        (.FromJSON token.Payload)) user db hpass hget]
    cases hz : claims.Expiration.IsZero <;> simp [World.log]
  · intro hnot
    cases hkey : env.GetAPIKey ctx with
    | none =>
      rw [c1 hkey]
      simp [Call.isStore]
    | some s =>
      cases hparse : env.FromBase64URLString s with
      | error e =>
        rw [c2 s e hkey hparse]
        simp [Call.isStore]
      | ok token =>
        cases hsign : env.Sign token.Payload with
        | error e =>
          rw [c3 s e token hkey hparse hsign]
          simp [Call.isStore]
        | ok sig =>
          by_cases hsig : sig = token.Signature
          · subst hsig
            cases hdec : env.FromJSON token.Payload with
            | error e =>
              rw [c5 s e token hkey hparse hsign hdec]
              simp [Call.isStore]
            | ok claims =>
              cases hz : claims.Expiration.IsZero with
              | true => exact absurd ⟨s, token, claims, hkey, hparse, hsign, hdec, Or.inl hz⟩ hnot
              | false =>
                cases hb : claims.Expiration.Before w.now with
                | false =>
                  exact absurd ⟨s, token, claims, hkey, hparse, hsign, hdec, Or.inr hb⟩ hnot
                | true =>
                  rw [c6 s token claims hkey hparse hsign hdec hz hb]
                  simp [Call.isStore]
          · rw [c4 s token sig hkey hparse hsign hsig]
            simp [Call.isStore]

/-- Witness for `Authorize_steps`: the token issued for `alice`, presented at five
nanoseconds past the zero time, resolves to her record. -/
theorem Authorize_steps_witness :
    (Service.Authorize demoEnv
        ⟨some (demoTokenString ⟨7 :: be8 900000000000, [186, 9]⟩), .error (.new "unused")⟩
        (⟨aliceDB, ⟨5⟩, []⟩ : World DemoDB)) =
      (.ok ⟨alice, ⟨7, ⟨900000000000⟩⟩⟩,
        { db := aliceDB, now := ⟨5⟩,
          trace := [.GetAPIKey,
            .FromBase64URLString (demoTokenString ⟨7 :: be8 900000000000, [186, 9]⟩),
            .Sign (7 :: be8 900000000000), .FromJSON (7 :: be8 900000000000), .Now,
            .UsersGet 7] }) :=
  (Authorize_steps demoEnv
      ⟨some (demoTokenString ⟨7 :: be8 900000000000, [186, 9]⟩), .error (.new "unused")⟩
      (⟨aliceDB, ⟨5⟩, []⟩ : World DemoDB)).2.2.2.2.2.2.2.1
    (demoTokenString ⟨7 :: be8 900000000000, [186, 9]⟩) ⟨7 :: be8 900000000000, [186, 9]⟩
    ⟨7, ⟨900000000000⟩⟩ alice aliceDB rfl rfl rfl rfl (Or.inr rfl) rfl

/-! ## Gated account operations -/

/-- Claim C7: when the authorization lookup of a request fails, each of the eleven gated
operations returns that error; the only call it makes is the lookup itself, so the store
state is the one it started from and no store call is recorded. -/
theorem gated_operations_stop {κ σ : Type} (env : Env κ σ) (ctx : κ) (w : World σ) (e : Error)
    (hauth : env.GetAuth ctx = .error e) :
    (∀ info : CompanyInfo, Service.CreateCompany env ctx info w =
        (.error e, { db := w.db, now := w.now, trace := w.trace ++ [.GetAuth] })) ∧
      (∀ id : UUID, Service.GetUser env ctx id w =
        (.error e, { db := w.db, now := w.now, trace := w.trace ++ [.GetAuth] })) ∧
      (∀ (id : UUID) (info : UserInfo), Service.UpdateUser env ctx id info w =
        (.error e, { db := w.db, now := w.now, trace := w.trace ++ [.GetAuth] })) ∧
      (∀ id : UUID, Service.DeleteUser env ctx id w =
        (.error e, { db := w.db, now := w.now, trace := w.trace ++ [.GetAuth] })) ∧
      (∀ userID : UUID, Service.GetCompany env ctx userID w =
        (.error e, { db := w.db, now := w.now, trace := w.trace ++ [.GetAuth] })) ∧
      (∀ (userID : UUID) (info : CompanyInfo), Service.UpdateCompany env ctx userID info w =
        (.error e, { db := w.db, now := w.now, trace := w.trace ++ [.GetAuth] })) ∧
      (∀ projectID : UUID, Service.GetProject env ctx projectID w =
        (.error e, { db := w.db, now := w.now, trace := w.trace ++ [.GetAuth] })) ∧
      Service.GetUsersProjects env ctx w =
        (([], some e), { db := w.db, now := w.now, trace := w.trace ++ [.GetAuth] }) ∧
      (∀ projectInfo : ProjectInfo, Service.CreateProject env ctx projectInfo w =
        (.error e, { db := w.db, now := w.now, trace := w.trace ++ [.GetAuth] })) ∧
      (∀ projectID : UUID, Service.DeleteProject env ctx projectID w =
        (.error e, { db := w.db, now := w.now, trace := w.trace ++ [.GetAuth] })) ∧
      (∀ (projectID : UUID) (description : String),
        Service.UpdateProject env ctx projectID description w =
          (.error e, { db := w.db, now := w.now, trace := w.trace ++ [.GetAuth] })) ∧
      (w.trace ++ [Call.GetAuth]).filter Call.isStore = w.trace.filter Call.isStore := by
  refine ⟨?_, ?_, ?_, ?_, ?_, ?_, ?_, ?_, ?_, ?_, ?_, ?_⟩
  · intro info
    simp only [Service.CreateCompany, hauth, World.log]
  · intro id
    simp only [Service.GetUser, hauth, World.log]
  · intro id info
    simp only [Service.UpdateUser, hauth, World.log]
  · intro id
    simp only [Service.DeleteUser, hauth, World.log]
  · intro userID
    simp only [Service.GetCompany, hauth, World.log]
  · intro userID info
    simp only [Service.UpdateCompany, hauth, World.log]
  · intro projectID
    simp only [Service.GetProject, hauth, World.log]
  · simp only [Service.GetUsersProjects, hauth, World.log]
  · intro projectInfo
    simp only [Service.CreateProject, hauth, World.log]
  · intro projectID
    simp only [Service.DeleteProject, hauth, World.log]
  · intro projectID description
    simp only [Service.UpdateProject, hauth, World.log]
  · simp [Call.isStore]

/-- Witness for `gated_operations_stop`: deleting a user from a context without
authorization leaves the store as it was. -/
theorem gated_operations_stop_witness :
    demoEnv.GetAuth anonymousCtx = .error (.new "unauthorized") ∧
      Service.DeleteUser demoEnv anonymousCtx 7 (⟨aliceDB, ⟨5⟩, []⟩ : World DemoDB) =
        (.error (.new "unauthorized"), { db := aliceDB, now := ⟨5⟩, trace := [] ++ [.GetAuth] }) :=
  ⟨rfl, (gated_operations_stop demoEnv anonymousCtx (⟨aliceDB, ⟨5⟩, []⟩ : World DemoDB)
    (.new "unauthorized") rfl).2.2.2.1 7⟩

/-- Claim C8: for an authorized request and a project description whose terms are
accepted, `CreateProject` makes one store call, an insert of the project whose owner is the
authorized user, whose name and description are those of the request and whose other
fields do not come from the request; two requests that agree on name and description
insert the same project whatever else they carry. -/
theorem CreateProject_owner {κ σ : Type} (env : Env κ σ) (ctx : κ) (w : World σ)
    (auth : Authorization) (projectInfo : ProjectInfo) (hauth : env.GetAuth ctx = .ok auth)
    (hterms : projectInfo.IsTermsAccepted = true) :
    (Service.CreateProject env ctx projectInfo w).2.trace =
        w.trace ++ [.GetAuth, .ProjectsInsert
          { ID := 0, OwnerID := some auth.User.ID, Name := projectInfo.Name,
            Description := projectInfo.Description, TermsAccepted := 1, CreatedAt := ⟨0⟩ }] ∧
      (Service.CreateProject env ctx projectInfo w).1 =
        liftErr (env.ProjectsInsert ctx
          { ID := 0, OwnerID := some auth.User.ID, Name := projectInfo.Name,
            Description := projectInfo.Description, TermsAccepted := 1, CreatedAt := ⟨0⟩ }
          w.db).1 ∧
      (Service.CreateProject env ctx projectInfo w).2.db =
        (env.ProjectsInsert ctx
          { ID := 0, OwnerID := some auth.User.ID, Name := projectInfo.Name,
            Description := projectInfo.Description, TermsAccepted := 1, CreatedAt := ⟨0⟩ }
          w.db).2 ∧
      (∀ other : ProjectInfo, other.IsTermsAccepted = true → other.Name = projectInfo.Name →
        other.Description = projectInfo.Description →
        Service.CreateProject env ctx other w = Service.CreateProject env ctx projectInfo w) := by
  have hrun : ∀ info : ProjectInfo, info.IsTermsAccepted = true →
      Service.CreateProject env ctx info w =
        callStore
          (.ProjectsInsert
            { ID := 0, OwnerID := some auth.User.ID, Name := info.Name,
              Description := info.Description, TermsAccepted := 1, CreatedAt := ⟨0⟩ })
          (env.ProjectsInsert ctx
            { ID := 0, OwnerID := some auth.User.ID, Name := info.Name,
              Description := info.Description, TermsAccepted := 1, CreatedAt := ⟨0⟩ })
          (w.log .GetAuth) := by
    intro info hacc
    simp [Service.CreateProject, hauth, hacc]
  refine ⟨?_, ?_, ?_, ?_⟩
  · rw [hrun projectInfo hterms]
    simp [callStore, World.log]
  · rw [hrun projectInfo hterms]
    rfl
  · rw [hrun projectInfo hterms]
    rfl
  · intro other hacc hname hdesc
    rw [hrun other hacc, hrun projectInfo hterms, hname, hdesc]

/-- Witness for `CreateProject_owner`: `alice` is authorized and the request carries
another identifier and another owner name; the inserted project is owned by `alice`. -/
theorem CreateProject_owner_witness :
    demoEnv.GetAuth aliceCtx =
        .ok { User := alice, Claims := { ID := 7, Expiration := ⟨0⟩ } } ∧
      (Service.CreateProject demoEnv aliceCtx
          { ID := 99, Name := "p", Description := "d", OwnerName := "Mallory M",
            IsTermsAccepted := true, CreatedAt := ⟨3⟩ }
          (⟨aliceDB, ⟨5⟩, []⟩ : World DemoDB)).2.trace =
        [] ++ [.GetAuth, .ProjectsInsert
          { ID := 0, OwnerID := some 7, Name := "p", Description := "d", TermsAccepted := 1,
            CreatedAt := ⟨0⟩ }] :=
  ⟨rfl, (CreateProject_owner demoEnv aliceCtx (⟨aliceDB, ⟨5⟩, []⟩ : World DemoDB)
    { User := alice, Claims := { ID := 7, Expiration := ⟨0⟩ } }
    { ID := 99, Name := "p", Description := "d", OwnerName := "Mallory M",
      IsTermsAccepted := true, CreatedAt := ⟨3⟩ } rfl rfl).1⟩

/-- Claim C9, as the code has it: `CreateProject` on a project description whose terms are
not accepted makes no store call; it fails with the terms-not-accepted error when the
authorization lookup succeeds and with the lookup's error when it fails. A description
built by `fromMapProjectInfo` from arguments in which `isTermsAccepted` is absent or is not
the boolean true has its terms not accepted. -/
theorem CreateProject_terms_gate {κ σ : Type} (env : Env κ σ) (ctx : κ) (w : World σ)
    (projectInfo : ProjectInfo) (hterms : projectInfo.IsTermsAccepted = false) :
    (∀ auth : Authorization, env.GetAuth ctx = .ok auth →
        Service.CreateProject env ctx projectInfo w =
          (.error (.new "Terms of use should be accepted!"),
            { db := w.db, now := w.now, trace := w.trace ++ [.GetAuth] })) ∧
      (∀ e : Error, env.GetAuth ctx = .error e →
        Service.CreateProject env ctx projectInfo w =
          (.error e, { db := w.db, now := w.now, trace := w.trace ++ [.GetAuth] })) ∧
      (Service.CreateProject env ctx projectInfo w).2.db = w.db ∧
      (Service.CreateProject env ctx projectInfo w).2.trace = w.trace ++ [.GetAuth] ∧
      (∀ (fieldName : String) (args : Args),
        args fieldIsTermsAccepted ≠ some (.bool true) →
          (fromMapProjectInfo fieldName args).IsTermsAccepted = false) := by
  have h1 : ∀ auth : Authorization, env.GetAuth ctx = .ok auth →
      Service.CreateProject env ctx projectInfo w =
        (.error (.new "Terms of use should be accepted!"),
          { db := w.db, now := w.now, trace := w.trace ++ [.GetAuth] }) := by
    intro auth hauth
    simp [Service.CreateProject, hauth, hterms, World.log]
  have h2 : ∀ e : Error, env.GetAuth ctx = .error e →
      Service.CreateProject env ctx projectInfo w =
        (.error e, { db := w.db, now := w.now, trace := w.trace ++ [.GetAuth] }) := by
    intro e hauth
    simp only [Service.CreateProject, hauth, World.log]
  refine ⟨h1, h2, ?_, ?_, ?_⟩
  · cases hauth : env.GetAuth ctx with
    | error e => rw [h2 e hauth]
    | ok auth => rw [h1 auth hauth]
  · cases hauth : env.GetAuth ctx with
    | error e => rw [h2 e hauth]
    | ok auth => rw [h1 auth hauth]
  · intro fieldName args hne
    simp only [fromMapProjectInfo]
    rcases harg : args fieldIsTermsAccepted with _ | v
    · rfl
    · cases v with
      | bool b =>
        cases b with
        | false => rfl
        | true => exact absurd harg hne
      | null => rfl
      | int n => rfl
      | string s => rfl
      | list vs => rfl

/-- Witness for `CreateProject_terms_gate`: `alice` is authorized, the arguments carry the
string "true" under `isTermsAccepted`, and the request is rejected without an insert. -/
theorem CreateProject_terms_gate_witness :
    (fromMapProjectInfo "name"
        (fun k => if k = "isTermsAccepted" then some (.string "true") else none)).IsTermsAccepted =
        false ∧
      Service.CreateProject demoEnv aliceCtx
          (fromMapProjectInfo "name"
            (fun k => if k = "isTermsAccepted" then some (.string "true") else none))
          (⟨aliceDB, ⟨5⟩, []⟩ : World DemoDB) =
        (.error (.new "Terms of use should be accepted!"),
          { db := aliceDB, now := ⟨5⟩, trace := [] ++ [.GetAuth] }) :=
  ⟨rfl, (CreateProject_terms_gate demoEnv aliceCtx (⟨aliceDB, ⟨5⟩, []⟩ : World DemoDB)
    (fromMapProjectInfo "name"
      (fun k => if k = "isTermsAccepted" then some (.string "true") else none)) rfl).1
    { User := alice, Claims := { ID := 7, Expiration := ⟨0⟩ } } rfl⟩

/-- Claim C9 fails as stated: for a request whose authorization lookup fails,
`CreateProject` with terms not accepted returns the lookup's error, not the
terms-not-accepted error. -/
theorem CreateProject_unauthorized_not_terms_error :
    (Service.CreateProject demoEnv anonymousCtx
        { ID := 0, Name := "p", Description := "d", OwnerName := "",
          IsTermsAccepted := false, CreatedAt := ⟨0⟩ }
        (⟨aliceDB, ⟨5⟩, []⟩ : World DemoDB)).1 = .error (.new "unauthorized") ∧
      (Error.new "unauthorized") ≠ .new "Terms of use should be accepted!" :=
  ⟨rfl, by decide⟩

/-! ## Issuance end to end -/

theorem Token_ok {κ σ : Type} (env : Env κ σ) (ctx : κ) (email password : String)
    (w : World σ) (user : User) (db : σ) (json sig : Bytes)
    (hcred : env.UsersGetByCredentials ctx (env.Sum256 password) email w.db = (.ok user, db))
    (hjson : env.ClaimsJSON { ID := user.ID, Expiration := w.now.Add (Minute * 15) } = .ok json)
    (hsign : env.Sign json = .ok sig) :
    Service.Token env ctx email password w =
      ((env.TokenString { Payload := json, Signature := sig }, none),
        { db := db, now := w.now,
          trace := w.trace ++
            [.UsersGetByCredentials (env.Sum256 password) email, .Now,
              .ClaimsJSON { ID := user.ID, Expiration := w.now.Add (Minute * 15) },
              .Sign json] }) := by
  simp only [Service.Token, callStore, hcred, liftErr]
  rw [createToken_ok env _ _ json sig hjson hsign]
  simp [World.log]

theorem Token_lookup_error {κ σ : Type} (env : Env κ σ) (ctx : κ) (email password : String)
    (w : World σ) (e : String) (db : σ)
    (hcred : env.UsersGetByCredentials ctx (env.Sum256 password) email w.db = (.error e, db)) :
    Service.Token env ctx email password w =
      (("", some (.external e)),
        { db := db, now := w.now,
          trace := w.trace ++ [.UsersGetByCredentials (env.Sum256 password) email] }) := by
  simp only [Service.Token, callStore, hcred, liftErr]

/-- Claim C10, as the code has it: when the store resolves the credentials to user `U` at
time `t0` and the signer succeeds, `Token` returns the string of a token whose claims are
`U.ID` with expiration `t0` plus fifteen minutes, signed by the service's signer; presented
later at time `t` with `U` still in the store, `Authorize` resolves to the stored record
when `t` is not after the expiration, and fails with the token-outdated error when `t` is
after it, `t0` being a reading of the system clock. When the credential lookup fails,
`Token` returns that error with the empty string and the signer is not called. -/
theorem Token_end_to_end {κ σ : Type} (env : Env κ σ) (ctx : κ) (email password : String)
    (w : World σ) :
    (∀ (user : User) (db : σ) (json sig : Bytes),
        env.UsersGetByCredentials ctx (env.Sum256 password) email w.db = (.ok user, db) →
        env.ClaimsJSON { ID := user.ID, Expiration := w.now.Add (Minute * 15) } = .ok json →
        env.FromJSON json = .ok { ID := user.ID, Expiration := w.now.Add (Minute * 15) } →
        env.Sign json = .ok sig →
        env.FromBase64URLString (env.TokenString { Payload := json, Signature := sig }) =
          .ok { Payload := json, Signature := sig } →
        (Service.Token env ctx email password w).1 =
            (env.TokenString { Payload := json, Signature := sig }, none) ∧
          ∀ (ctx' : κ) (w' : World σ) (record : User) (db' : σ),
            env.GetAPIKey ctx' = some (Service.Token env ctx email password w).1.1 →
            env.UsersGet ctx' user.ID w'.db = (.ok record, db') →
            (w'.now.ns ≤ w.now.ns + 15 * Minute →
                (Service.Authorize env ctx' w').1 =
                  .ok { User := record,
                        Claims := { ID := user.ID, Expiration := w.now.Add (Minute * 15) } }) ∧
              (w.now.ns + 15 * Minute < w'.now.ns → w.now.isClockReading = true →
                (Service.Authorize env ctx' w').1 = .error (.new "token is outdated"))) ∧
      (∀ (e : String) (db : σ),
        env.UsersGetByCredentials ctx (env.Sum256 password) email w.db = (.error e, db) →
        (Service.Token env ctx email password w).1 = ("", some (.external e)) ∧
          (Service.Token env ctx email password w).2.trace =
            w.trace ++ [.UsersGetByCredentials (env.Sum256 password) email]) := by
  constructor
  · intro user db json sig hcred hjson hdec hsign hstr
    have htok := Token_ok env ctx email password w user db json sig hcred hjson hsign
    refine ⟨by rw [htok], ?_⟩
    intro ctx' w' record db' hkey hget
    rw [htok] at hkey
    have hsteps := Authorize_steps env ctx' w'
    constructor
    · intro hle
      have hpass : (w.now.Add (Minute * 15)).IsZero = true ∨
          (w.now.Add (Minute * 15)).Before w'.now = false := by
        right
        simp only [Time.Before, Time.Add, decide_eq_false_iff_not, not_lt]
        linarith
      rw [hsteps.2.2.2.2.2.2.2.1 _ { Payload := json, Signature := sig }
        { ID := user.ID, Expiration := w.now.Add (Minute * 15) } record db' hkey hstr hsign hdec
        hpass hget]
    · intro hlt hclock
      have hz : (w.now.Add (Minute * 15)).IsZero = false := by
        simp only [Time.isClockReading, unixEpoch, Second, decide_eq_true_eq] at hclock
        simp only [Time.IsZero, Time.Add, Minute, Second, beq_eq_false_iff_ne, ne_eq]
        omega
      have hb : (w.now.Add (Minute * 15)).Before w'.now = true := by
        simp only [Time.Before, Time.Add, decide_eq_true_eq]
        linarith
      rw [hsteps.2.2.2.2.2.1 _ { Payload := json, Signature := sig }
        { ID := user.ID, Expiration := w.now.Add (Minute * 15) } hkey hstr hsign hdec hz hb]
  · intro e db hcred
    rw [Token_lookup_error env ctx email password w e db hcred]
    exact ⟨rfl, rfl⟩

/-- Witness for `Token_end_to_end`: a token issued for `alice` at the Unix epoch resolves
to her record fifteen minutes later and is outdated one nanosecond after that. -/
theorem Token_end_to_end_witness :
    (Service.Token demoEnv anonymousCtx "alice@example.org" "secret"
        (⟨aliceDB, unixEpoch, []⟩ : World DemoDB)).1 =
        (demoTokenString ⟨7 :: be16 62135597700000000000, [34, 17]⟩, none) ∧
      (Service.Authorize demoEnv
        ⟨some (demoTokenString ⟨7 :: be16 62135597700000000000, [34, 17]⟩), .error (.new "unused")⟩
        (⟨aliceDB, ⟨62135597700000000000⟩, []⟩ : World DemoDB)).1 =
          .ok ⟨alice, ⟨7, ⟨62135597700000000000⟩⟩⟩ ∧
      (Service.Authorize demoEnv
        ⟨some (demoTokenString ⟨7 :: be16 62135597700000000000, [34, 17]⟩), .error (.new "unused")⟩
        (⟨aliceDB, ⟨62135597700000000001⟩, []⟩ : World DemoDB)).1 =
          .error (.new "token is outdated") :=
  have h := (Token_end_to_end demoEnv anonymousCtx "alice@example.org" "secret"
    (⟨aliceDB, unixEpoch, []⟩ : World DemoDB)).1 alice aliceDB
    (7 :: be16 62135597700000000000) [34, 17] rfl rfl rfl rfl rfl
  ⟨h.1,
    (h.2 ⟨some (demoTokenString ⟨7 :: be16 62135597700000000000, [34, 17]⟩), .error (.new "unused")⟩
      ⟨aliceDB, ⟨62135597700000000000⟩, []⟩ alice aliceDB rfl rfl).1 (by decide),
    (h.2 ⟨some (demoTokenString ⟨7 :: be16 62135597700000000000, [34, 17]⟩), .error (.new "unused")⟩
      ⟨aliceDB, ⟨62135597700000000001⟩, []⟩ alice aliceDB rfl rfl).2 (by decide) (by decide)⟩

/-- Claim C10 fails as stated: when the signer fails, `Token` returns the empty string and
the signer's error although the store resolved the credentials to `alice`. -/
theorem Token_sign_failure :
    (failEnv.UsersGetByCredentials anonymousCtx (failEnv.Sum256 "secret")
        "alice@example.org" aliceDB).1 = .ok alice ∧
      (Service.Token failEnv anonymousCtx "alice@example.org" "secret"
        (⟨aliceDB, unixEpoch, []⟩ : World DemoDB)).1 =
          ("", some (.external "key unavailable")) :=
  ⟨rfl, rfl⟩

end Satellite
